import Mathlib

/-!
Verification development for the e4s-cl library-import core.

The definitions below are a shallow embedding of the Python sources:

* `src/e4s_cl/cf/compiler.py` — compiler-vendor detection from the ELF
  `.comment` section;
* `src/e4s_cl/cf/containers/__init__.py` — the `Container` abstraction
  (`bind_file`, `bound`, `add_ld_preload`, `add_ld_library_path`,
  `get_data`);
* `src/e4s_cl/cf/containers/shifter.py` — the Shifter backend driver
  (`_setup_import`, `_prepare`, `run`);
* `src/packages/e4s_cl/cli/commands/analyze.py` — the in-container
  introspection command.

Python strings are modelled as Lean `String` with all operations
re-implemented over `List Char` (so that every definition evaluates by
kernel reduction); filesystem state is passed explicitly (an `isDir` or
existence predicate, or a list of existing directories); fallible code
returns `Except`.
-/

set_option autoImplicit false

namespace E4SCL

/-- Decidable equality for `Except`, so that concrete runs of the
fallible models can be checked by `decide`. -/
instance {ε α : Type} [DecidableEq ε] [DecidableEq α] : DecidableEq (Except ε α) := fun x y =>
  match x, y with
  | .error a, .error b => decidable_of_iff (a = b) (by simp)
  | .error _, .ok _ => isFalse (fun h => Except.noConfusion h)
  | .ok _, .error _ => isFalse (fun h => Except.noConfusion h)
  | .ok a, .ok b => decidable_of_iff (a = b) (by simp)

/-! ### String primitives (models of the Python `str` operations used) -/

/-- Boolean test that `pre` is a character-wise prefix of the second list;
model of Python `str.startswith` restricted to the characters. -/
def listIsPre : List Char → List Char → Bool
  | [], _ => true
  | _ :: _, [] => false
  | a :: t1, b :: t2 => a == b && listIsPre t1 t2

/-- Boolean substring test over character lists: some suffix of `hay`
starts with `needle`. -/
def listHasSub (hay needle : List Char) : Bool :=
  match hay with
  | [] => listIsPre needle []
  | _ :: t => listIsPre needle hay || listHasSub t needle

/-- Model of the Python containment test `needle in hay` on `str`. -/
def strIn (needle hay : String) : Bool := listHasSub hay.toList needle.toList

/-- Model of Python `str.startswith(pre)`. -/
def pyStartsWith (s pre : String) : Bool := listIsPre pre.toList s.toList

/-- Digit run to a natural number (helper for the version parser and
the `int()` model). -/
def charsToNat (l : List Char) : Nat := l.foldl (fun n c => n * 10 + (c.toNat - 48)) 0

/-- Model of Python `int(s)` on the strings the analyze command can
receive through `__E4S_CL_JSON_FD`: an optional minus sign followed by
decimal digits; anything else raises `ValueError` (here: `none`). -/
def pyIntOfStr (s : String) : Option Int :=
  match s.toList with
  | '-' :: rest =>
    if rest ≠ [] ∧ rest.all (fun c => c.isDigit) then some (-(charsToNat rest : Int)) else none
  | l =>
    if l ≠ [] ∧ l.all (fun c => c.isDigit) then some ((charsToNat l : Int)) else none

/-! ### UTF-8 decoding (model of Python `bytes.decode()`, strict codec)

`_get_comment` calls `.decode()` on the raw bytes of each `.comment`
section.  The strict UTF-8 codec of CPython accepts exactly the valid
UTF-8 byte sequences (rejecting surrogates, overlong encodings and code
points above U+10FFFF) and raises `UnicodeDecodeError` otherwise.  The
decoder below mirrors that table; the first argument is fuel (the byte
count suffices, each step consumes at least one byte). -/

/-- Continuation-byte test for the UTF-8 decoder: `0x80 ≤ b ≤ 0xBF`. -/
def contByte (b : Nat) : Bool := decide (0x80 ≤ b ∧ b ≤ 0xBF)

/-- Fuel-indexed strict UTF-8 decoder over byte values. -/
def utf8DecodeAux : Nat → List Nat → Option (List Char)
  | _, [] => some []
  | 0, _ :: _ => none
  | fuel + 1, b1 :: t1 =>
    if b1 ≤ 0x7F then
      (utf8DecodeAux fuel t1).map (fun cs => Char.ofNat b1 :: cs)
    else if 0xC2 ≤ b1 ∧ b1 ≤ 0xDF then
      match t1 with
      | b2 :: t2 =>
        if contByte b2 then
          (utf8DecodeAux fuel t2).map
            (fun cs => Char.ofNat ((b1 - 0xC0) * 0x40 + (b2 - 0x80)) :: cs)
        else none
      | [] => none
    else if 0xE0 ≤ b1 ∧ b1 ≤ 0xEF then
      match t1 with
      | b2 :: b3 :: t3 =>
        if (if b1 = 0xE0 then 0xA0 else 0x80) ≤ b2 ∧
            b2 ≤ (if b1 = 0xED then 0x9F else 0xBF) ∧ contByte b3 = true then
          (utf8DecodeAux fuel t3).map
            (fun cs =>
              Char.ofNat ((b1 - 0xE0) * 0x1000 + (b2 - 0x80) * 0x40 + (b3 - 0x80)) :: cs)
        else none
      | _ => none
    else if 0xF0 ≤ b1 ∧ b1 ≤ 0xF4 then
      match t1 with
      | b2 :: b3 :: b4 :: t4 =>
        if (if b1 = 0xF0 then 0x90 else 0x80) ≤ b2 ∧
            b2 ≤ (if b1 = 0xF4 then 0x8F else 0xBF) ∧
            contByte b3 = true ∧ contByte b4 = true then
          (utf8DecodeAux fuel t4).map
            (fun cs =>
              Char.ofNat
                ((b1 - 0xF0) * 0x40000 + (b2 - 0x80) * 0x1000 +
                    (b3 - 0x80) * 0x40 + (b4 - 0x80)) :: cs)
        else none
      | _ => none
    else none

/-- Model of Python `bytes.decode()` (strict UTF-8): `none` is
`UnicodeDecodeError`. -/
def pyDecodeUtf8 (bytes : List Nat) : Option String :=
  (utf8DecodeAux bytes.length bytes).map List.asString

/-! ### `e4s_cl/cf/compiler.py` -/

/-- Model of `_gnu_check`: `'GCC' in string`. -/
def _gnu_check (s : String) : Bool := strIn "GCC" s

/-- Model of `_llvm_check`: `'clang' in string`. -/
def _llvm_check (s : String) : Bool := strIn "clang" s

/-- Model of `_intel_check`: constant `False`. -/
def _intel_check (_ : String) : Bool := false

/-- Model of `_amd_check`: `'AMD' in string`. -/
def _amd_check (s : String) : Bool := strIn "AMD" s

/-- Model of `_pgi_check`: constant `False`. -/
def _pgi_check (_ : String) : Bool := false

/-- Model of `_armclang_check`: constant `False`. -/
def _armclang_check (_ : String) : Bool := false

/-- Model of `_fujitsu_check`: constant `False`. -/
def _fujitsu_check (_ : String) : Bool := false

namespace CompilerVendor

/-- `CompilerVendor.GNU = 0`. -/
def GNU : Nat := 0

/-- `CompilerVendor.LLVM = 1`. -/
def LLVM : Nat := 1

/-- `CompilerVendor.INTEL = 2`. -/
def INTEL : Nat := 2

/-- `CompilerVendor.AMD = 3`. -/
def AMD : Nat := 3

/-- `CompilerVendor.PGI = 4`. -/
def PGI : Nat := 4

/-- `CompilerVendor.ARMCLANG = 5`. -/
def ARMCLANG : Nat := 5

/-- `CompilerVendor.FUJITSU = 6`. -/
def FUJITSU : Nat := 6

/-- The `checks` dict of `CompilerVendor`, as an association list in
its source order. -/
def checks : List (Nat × (String → Bool)) :=
  [(GNU, _gnu_check), (LLVM, _llvm_check), (INTEL, _intel_check), (AMD, _amd_check),
    (PGI, _pgi_check), (ARMCLANG, _armclang_check), (FUJITSU, _fujitsu_check)]

/-- The `precendence` list (sic, the source's spelling): `[AMD, LLVM, GNU]`. -/
def precendence : List Nat := [AMD, LLVM, GNU]

end CompilerVendor

/-- The `for vendor in CompilerVendor.precendence` loop of
`compiler_vendor`: the first vendor whose check accepts the comment is
returned; the fall-through returns `CompilerVendor.GNU`. -/
def vendorScan (comment : String) : List Nat → Nat
  | [] => CompilerVendor.GNU
  | v :: rest =>
    match CompilerVendor.checks.lookup v with
    | some check => if check comment then v else vendorScan comment rest
    | none => vendorScan comment rest

/-- `compiler_vendor` restricted to the decoded `.comment` contents (the
pure tail of the Python function, after `_get_comment`). -/
def vendorOfComment (comment : String) : Nat := vendorScan comment CompilerVendor.precendence

/-- The exception classes caught by `_get_comment`. -/
inductive ReadErr
  | permissionError
  | fileNotFoundError
  | isADirectoryError
  | elfError
deriving DecidableEq

/-- An exception `_get_comment` does not catch: `bytes.decode()` raising
`UnicodeDecodeError` (a `ValueError`, absent from the `except` tuple). -/
inductive PyErr
  | unicodeDecodeError
deriving DecidableEq

/-- Model of `_get_comment`: the input is the outcome of opening and
parsing the ELF file (`.error` for the caught `PermissionError`,
`FileNotFoundError`, `IsADirectoryError` and `ELFError`, in which case
`''` is returned; `.ok` carries the raw bytes of each `.comment`
section).  Each section's bytes are decoded as strict UTF-8 — a failure
is the uncaught `UnicodeDecodeError` — and joined with `' - '`. -/
def _get_comment (readRes : Except ReadErr (List (List Nat))) : Except PyErr String :=
  match readRes with
  | .error _ => .ok ""
  | .ok sections =>
    match sections.mapM pyDecodeUtf8 with
    | none => .error PyErr.unicodeDecodeError
    | some strs => .ok (String.intercalate " - " strs)

/-- Model of `compiler_vendor`: `_get_comment` followed by the
precedence scan. -/
def compiler_vendor (readRes : Except ReadErr (List (List Nat))) : Except PyErr Nat :=
  (_get_comment readRes).map vendorOfComment

/-! ### `e4s_cl/cf/version.py` (not shipped under `src/`) -/

/-- Modelled from the spec: `e4s_cl.cf.version.Version` (the module is
not under `src/`) is "a semantic tuple `(major, minor, patch)` parsed
from free-form strings (e.g. `ldd (GNU libc) 2.28`)". -/
structure Version where
  major : Nat
  minor : Nat
  patch : Nat
deriving DecidableEq

/-- Modelled from the spec: parse the leading version number of a
free-form string — the first digit run with embedded dots — into a
`Version`; absent fields are zero, so `"ldd (GNU libc) 2.28"` parses to
`(2, 28, 0)` as §8 of the spec requires. -/
def parseVersion (s : String) : Version :=
  let cs := s.toList
  let afterJunk := cs.dropWhile (fun c => !c.isDigit)
  let run := afterJunk.takeWhile (fun c => c.isDigit || c == '.')
  let fields := (run.splitOn '.').map charsToNat
  { major := fields.getD 0 0, minor := fields.getD 1 0, patch := fields.getD 2 0 }

/-! ### `e4s_cl/cf/containers/__init__.py` — paths and `bind_file` -/

/-- A `pathlib.Path` as its `parts` after the root (absolute paths). -/
abbrev PathParts := List String

/-- One step of the lexical model of `Path.resolve()`: `'..'` removes
the last component (a no-op at the root, as in POSIX realpath), any
other component is appended.  `PurePath` never stores `'.'` or empty
components, and the model assumes a symlink-free filesystem. -/
def resolveStep (acc : PathParts) (part : String) : PathParts :=
  if part = ".." then acc.dropLast else acc ++ [part]

/-- Lexical model of `Path.resolve()` on an absolute path. -/
def resolveParts (p : PathParts) : PathParts := p.foldl resolveStep []

/-- Model of the `_contains(path1, path2)` helper inside
`Container.bind_file`: with `index = len(path1.parts)` it tests
`path1.parts[:index] == path2.parts[:index]`, i.e. that `path1` is a
parts-prefix of `path2`. -/
def containsPath : PathParts → PathParts → Bool
  | [], _ => true
  | _ :: _, [] => false
  | a :: t1, b :: t2 => a == b && containsPath t1 t2

/-- The `for i, part in enumerate(path.parts): if part == '..'` loop of
`_unrelative`: for every `'..'` component, the resolved prefix before
it. -/
def ddAncestors (p : PathParts) : List PathParts :=
  (List.range p.length).filterMap
    (fun i => if p[i]? = some ".." then some (resolveParts (p.take i)) else none)

/-- The `visited` set of `_unrelative`: the path itself, its resolution,
and the resolved prefix before each `'..'` component. -/
def visitedList (p : PathParts) : List PathParts := p :: resolveParts p :: ddAncestors p

/-- The containment pruning of `_unrelative` over the `visited` set
(held as a duplicate-free list, one iteration order of the Python set):
keep exactly the elements not contained in the tree of another
element. -/
def prunedList (l : List PathParts) : List PathParts :=
  let d := l.dedup
  d.filter (fun e => decide (∀ q ∈ d, q = e ∨ containsPath q e = false))

/-- Model of `_unrelative`: the list of directories/files that must be
bound for a path with `'..'` components (the source returns
`[p.as_posix() for p in deps]`). -/
def unrelative (p : PathParts) : List PathParts := prunedList (visitedList p)

/-- The bound-source set as the claim describes it: the fully resolved
path plus the resolved prefix directory before each `'..'` segment,
pruned by containment.  (It differs from `unrelative` in not seeding the
un-resolved path itself into the visited set.) -/
def claimedSources (p : PathParts) : Finset PathParts :=
  (prunedList (resolveParts p :: ddAncestors p)).toFinset

/-- `FileOptions.READ_ONLY`. -/
def READ_ONLY : Nat := 0

/-- `FileOptions.READ_WRITE`. -/
def READ_WRITE : Nat := 1

/-- `Container.BoundFile`: the value stored in the `__bound_files`
dict. -/
structure BoundFile where
  path : PathParts
  option : Nat
deriving DecidableEq

/-- The mutable state of a `Container` object that the claims touch:
the `__bound_files` dict (an association list in insertion order, as
Python dicts iterate), `env`, `ld_preload`, `ld_lib_path`, `libc_v`. -/
structure ContainerState where
  bound_files : List (PathParts × BoundFile)
  env : List (String × String)
  ld_preload : List String
  ld_lib_path : List String
  libc_v : Version
deriving DecidableEq

/-- A freshly `__init__`-ed container: empty dict, env and lists,
`libc_v = Version('0.0.0')`. -/
def emptyContainer : ContainerState :=
  { bound_files := [], env := [], ld_preload := [], ld_lib_path := [],
    libc_v := { major := 0, minor := 0, patch := 0 } }

/-- Python `dict.update({k: v})`: replace in place when the key is
present, else append. -/
def dictUpdate (l : List (PathParts × BoundFile)) (k : PathParts) (v : BoundFile) :
    List (PathParts × BoundFile) :=
  if l.any (fun e => e.1 == k) then l.map (fun e => if e.1 == k then (k, v) else e)
  else l ++ [(k, v)]

/-- `Container.bind_file(path)` with no destination: every path produced
by `_unrelative` is bound to itself. -/
def bind_file_nodest (c : ContainerState) (p : PathParts) (opt : Nat) : ContainerState :=
  { c with
    bound_files :=
      (unrelative p).foldl
        (fun bf q => dictUpdate bf q { path := q, option := opt }) c.bound_files }

/-- The set of source paths registered in the bound-file dict. -/
def boundSources (c : ContainerState) : Finset PathParts :=
  (c.bound_files.map (fun e => e.2.path)).toFinset

/-- Model of the `Container.bound` generator: `fs` is the filesystem
existence test at iteration time.  First component: the yielded
`(source, dest, option)` triples in dict order; second component: the
`(source, dest)` pairs named in the warnings for missing sources. -/
def bound (fs : PathParts → Bool) :
    List (PathParts × BoundFile) →
      List (PathParts × PathParts × Nat) × List (PathParts × PathParts)
  | [] => ([], [])
  | (dest, data) :: rest =>
    let r := bound fs rest
    if fs data.path then ((data.path, dest, data.option) :: r.1, r.2)
    else (r.1, (data.path, dest) :: r.2)

/-- Model of `Container.add_ld_preload`. -/
def add_ld_preload (c : ContainerState) (path : String) : ContainerState :=
  if path ∈ c.ld_preload then c else { c with ld_preload := c.ld_preload ++ [path] }

/-- Model of `Container.add_ld_library_path`. -/
def add_ld_library_path (c : ContainerState) (path : String) : ContainerState :=
  if path ∈ c.ld_lib_path then c else { c with ld_lib_path := c.ld_lib_path ++ [path] }

/-- The `AnalysisError(returncode)` raised by `Container.get_data`. -/
structure AnalysisError where
  code : Int
deriving DecidableEq

/-- Model of `Container.get_data` (the `src/e4s_cl` variant, which the
spec declares authoritative): `code` and `output` are the exit status
and captured stdout of `self.run(['ldd', '--version'])`.  A truthy
(non-zero) code raises `AnalysisError(code)`; otherwise `libc_v` is set
from the output and no error is raised. -/
def get_data (c : ContainerState) (code : Int) (output : String) :
    Except AnalysisError ContainerState :=
  if code ≠ 0 then Except.error { code := code }
  else Except.ok { c with libc_v := parseVersion output }

/-! ### `e4s_cl/cf/containers/shifter.py` -/

/-- `CONTAINER_DIR`, the in-guest import directory.  Modelled from the
spec and the shifter module's docstring ("bind `/.e4s-cl` files"): the
defining module `e4s_cl/__init__.py` is not under `src/`. -/
def CONTAINER_DIR : String := "/.e4s-cl"

/-- Python `repr` of a `str` holding no quote or backslash characters
(the shape reached through `f"...{t}..."` on a tuple of such strings):
the text wrapped in single quotes. -/
def pyStrRepr (s : String) : String := "\x27" ++ s ++ "\x27"

/-- Python `str` of a pair of strings, as interpolated by an f-string:
`('k', 'v')`. -/
def pyPairRepr (kv : String × String) : String :=
  "(" ++ pyStrRepr kv.1 ++ ", " ++ pyStrRepr kv.2 ++ ")"

/-- The `env_list` built by `ShifterContainer._prepare`: the
`--env=LD_PRELOAD=...` and `--env=LD_LIBRARY_PATH=...` arguments when
the lists are non-empty, then one argument per `self.env.items()` entry
built by `f'--env={env_var}={env_var}'` — `env_var` being the `(key,
value)` tuple, the f-string renders its `repr`. -/
def envArgs (env : List (String × String)) (ld_preload ld_lib_path : List String) :
    List String :=
  (if ld_preload.isEmpty then []
    else ["--env=LD_PRELOAD=" ++ String.intercalate ":" ld_preload]) ++
  (if ld_lib_path.isEmpty then []
    else ["--env=LD_LIBRARY_PATH=" ++ String.intercalate ":" ld_lib_path]) ++
  env.map (fun kv => "--env=" ++ pyPairRepr kv ++ "=" ++ pyPairRepr kv)

/-- The staging copy target of `_setup_import`:
`Path(where, destination.as_posix()[len(CONTAINER_DIR) + 1:])`. -/
def stagingTarget (whereDir : String) (dest : String) : String :=
  whereDir ++ "/" ++ (dest.toList.drop (CONTAINER_DIR.toList.length + 1)).asString

/-- Outcome of `ShifterContainer._setup_import`: the `cp` staging
operations, the volume pairs, and the entries named by `LOGGER.error`
(directory bound into `/etc`) and `LOGGER.warning` (plain file that
Shifter cannot bind). -/
structure ImportResult where
  copies : List (String × String)
  volumes : List (String × String)
  errors : List (String × String)
  warnings : List String
deriving DecidableEq

/-- The `for source, destination, _ in self.bound` loop of
`_setup_import`; `isDir` is the filesystem's `Path.is_dir` test. -/
def setup_import_aux (isDir : String → Bool) (whereDir : String) :
    List (String × String × Nat) → ImportResult
  | [] => { copies := [], volumes := [], errors := [], warnings := [] }
  | (source, dest, _) :: rest =>
    let r := setup_import_aux isDir whereDir rest
    if pyStartsWith dest CONTAINER_DIR then
      { r with copies := (source, stagingTarget whereDir dest) :: r.copies }
    else if isDir source then
      if pyStartsWith dest "/etc" then { r with errors := (source, dest) :: r.errors }
      else { r with volumes := (source, dest) :: r.volumes }
    else
      { r with warnings := source :: r.warnings }

/-- Model of `ShifterContainer._setup_import(where)`: the loop above,
with the staging root bound to `CONTAINER_DIR` as the first volume. -/
def setup_import (isDir : String → Bool) (whereDir : String)
    (bnd : List (String × String × Nat)) : ImportResult :=
  let r := setup_import_aux isDir whereDir bnd
  { r with volumes := (whereDir, CONTAINER_DIR) :: r.volumes }

/-- The `--volume=source:dest` argument list returned by
`_setup_import`. -/
def volume_args (isDir : String → Bool) (whereDir : String)
    (bnd : List (String × String × Nat)) : List String :=
  (setup_import isDir whereDir bnd).volumes.map
    (fun sd => "--volume=" ++ sd.1 ++ ":" ++ sd.2)

/-- The state of a `ShifterContainer` object: its configuration, the
`(source, dest, option)` triples its `self.bound` yields, and the
`TemporaryDirectory` handle held in `self.temp_dir` (`none` before the
first `run`). -/
structure ShifterContainer where
  image : String
  executable : String
  env : List (String × String)
  ld_preload : List String
  ld_lib_path : List String
  bound : List (String × String × Nat)
  temp_dir : Option String
deriving DecidableEq

/-- Model of `ShifterContainer._prepare(command)`: build `env_list`,
create the staging directory (`tempfile.TemporaryDirectory()` yields the
fresh name `tmpName`, which now exists on disk and is retained in
`self.temp_dir`), stage the imports, and return the full command line.
Results: the updated object, the filesystem (list of existing staging
directories), and the command. -/
def shifter_prepare (isDir : String → Bool) (c : ShifterContainer) (tmpName : String)
    (fs : List String) (command : List String) :
    ShifterContainer × List String × List String :=
  let env_list := envArgs c.env c.ld_preload c.ld_lib_path
  let c' : ShifterContainer := { c with temp_dir := some tmpName }
  let fs' := tmpName :: fs
  let volumes := volume_args isDir tmpName c.bound
  (c', fs', [c.executable, "--image=" ++ c.image] ++ env_list ++ volumes ++ command)

/-- Model of `ShifterContainer.run(command)`: `_prepare`, then
`run_subprocess` (which spawns the backend and reports `exitCode`, and
performs no staging cleanup of its own), then return.  Note that the
staging directory created by `_prepare` is still registered in the
filesystem component of the result. -/
def shifter_run (isDir : String → Bool) (c : ShifterContainer) (tmpName : String)
    (fs : List String) (command : List String) (exitCode : Int) :
    ShifterContainer × List String × Int :=
  let r := shifter_prepare isDir c tmpName fs command
  (r.1, r.2.1, exitCode)

/-- Model of the `TemporaryDirectory` finalizer: it runs when the handle
in `self.temp_dir` is dropped (container-object destruction, or
replacement by a later `run`), removing the staging directory. -/
def finalize_temp_dir (c : ShifterContainer) (fs : List String) :
    ShifterContainer × List String :=
  match c.temp_dir with
  | none => (c, fs)
  | some d => ({ c with temp_dir := none }, fs.erase d)

/-! ### `packages/e4s_cl/cli/commands/analyze.py` -/

/-- The exceptions `AnalyzeCommand.main` can raise at the
file-descriptor check: `InternalError` when the fd is `-1`, Python's
`ValueError` when `int()` cannot parse the variable. -/
inductive AnalyzeError
  | internalError
  | valueError
deriving DecidableEq

/-- Model of `AnalyzeCommand.main`: `resolveG` is the in-guest soname
resolution (`resolve(soname, ...)`, `None` when unresolvable — the
resolver itself is not under `src/`); `jsonFdVar` is
`os.environ.get('__E4S_CL_JSON_FD')`.  The cache holds one
`(soname, path)` entry per resolvable requested soname — unresolvable
ones are skipped by `continue` before anything is added.  The fd is then
parsed from the variable with default `'-1'`; `-1` raises
`InternalError` before `os.write`, so an error result carries no written
document.  On success the pair `(fd, emitted document)` is returned. -/
def analyze_main (resolveG : String → Option String) (libraries : List String)
    (jsonFdVar : Option String) : Except AnalyzeError (Int × List (String × String)) :=
  let cache := libraries.filterMap (fun soname => (resolveG soname).map (fun p => (soname, p)))
  match pyIntOfStr (jsonFdVar.getD "-1") with
  | none => Except.error AnalyzeError.valueError
  | some fd =>
    if fd = -1 then Except.error AnalyzeError.internalError
    else Except.ok (fd, cache)

/-! ## Theorems -/

/-- Unfolding of the precedence loop of `compiler_vendor`: the checks
are consulted in the order AMD, clang, GCC, with GNU as the
fall-through default. -/
theorem vendorOfComment_eq (c : String) :
    vendorOfComment c =
      if _amd_check c then CompilerVendor.AMD
      else if _llvm_check c then CompilerVendor.LLVM
      else if _gnu_check c then CompilerVendor.GNU
      else CompilerVendor.GNU := rfl

/-- The precedence loop only ever produces the AMD, LLVM or GNU tag. -/
theorem vendorOfComment_mem (c : String) :
    vendorOfComment c = CompilerVendor.AMD ∨ vendorOfComment c = CompilerVendor.LLVM ∨
      vendorOfComment c = CompilerVendor.GNU := by
  rw [vendorOfComment_eq]
  split_ifs <;> simp

/-- Claim C1: on a `.comment` containing the substrings `AMD`, `clang`
and `GCC` simultaneously, `compiler_vendor` returns the AMD tag; the
checks apply in the fixed precedence order AMD, then clang (LLVM), then
GCC (GNU); when no check matches the GNU tag is returned; and on a
successfully read comment `compiler_vendor` is exactly the precedence
scan of that comment. -/
theorem c1_compiler_vendor_precedence :
    (∀ c : String, strIn "AMD" c = true → strIn "clang" c = true → strIn "GCC" c = true →
        vendorOfComment c = CompilerVendor.AMD) ∧
    (∀ c : String, strIn "AMD" c = true → vendorOfComment c = CompilerVendor.AMD) ∧
    (∀ c : String, strIn "AMD" c = false → strIn "clang" c = true →
        vendorOfComment c = CompilerVendor.LLVM) ∧
    (∀ c : String, strIn "AMD" c = false → strIn "clang" c = false → strIn "GCC" c = true →
        vendorOfComment c = CompilerVendor.GNU) ∧
    (∀ c : String, strIn "AMD" c = false → strIn "clang" c = false → strIn "GCC" c = false →
        vendorOfComment c = CompilerVendor.GNU) ∧
    (∀ (r : Except ReadErr (List (List Nat))) (c : String), _get_comment r = Except.ok c →
        compiler_vendor r = Except.ok (vendorOfComment c)) := by
  refine ⟨?_, ?_, ?_, ?_, ?_, ?_⟩
  · intro c h _ _
    rw [vendorOfComment_eq]
    simp [_amd_check, h]
  · intro c h
    rw [vendorOfComment_eq]
    simp [_amd_check, h]
  · intro c h1 h2
    rw [vendorOfComment_eq]
    simp [_amd_check, _llvm_check, h1, h2]
  · intro c h1 h2 h3
    rw [vendorOfComment_eq]
    simp [_amd_check, _llvm_check, _gnu_check, h1, h2, h3]
  · intro c h1 h2 h3
    rw [vendorOfComment_eq]
    simp [_amd_check, _llvm_check, _gnu_check, h1, h2, h3]
  · intro r c h
    simp [compiler_vendor, h, Except.map]

/-- Witness for C1 at the ROCm-style comment `"AMD clang GCC"`. -/
theorem c1_compiler_vendor_precedence_witness :
    strIn "AMD" "AMD clang GCC" = true ∧ strIn "clang" "AMD clang GCC" = true ∧
      strIn "GCC" "AMD clang GCC" = true ∧
      vendorOfComment "AMD clang GCC" = CompilerVendor.AMD :=
  ⟨by decide, by decide, by decide,
    c1_compiler_vendor_precedence.1 "AMD clang GCC" (by decide) (by decide) (by decide)⟩

/-- Claim C8 counterexample: `compiler_vendor` is not total over
arbitrary input paths.  A well-formed ELF file whose `.comment` section
holds the single byte `0xFF` (not valid UTF-8) makes `bytes.decode()`
raise `UnicodeDecodeError`, which the `except` tuple of `_get_comment`
does not catch, so the function does not return normally. -/
theorem c8_totality_counterexample :
    compiler_vendor (Except.ok [[255]]) = Except.error PyErr.unicodeDecodeError := by decide

/-- Claim C8 (amended): whenever `compiler_vendor` returns normally its
value is one of AMD, LLVM, GNU — in particular never INTEL, PGI,
ARMCLANG or FUJITSU —, every caught read failure (missing file,
directory, unreadable file, malformed ELF) yields the GNU default, and
each of the three tags is attained. -/
theorem c8_compiler_vendor_range :
    (∀ (r : Except ReadErr (List (List Nat))) (v : Nat), compiler_vendor r = Except.ok v →
        v = CompilerVendor.AMD ∨ v = CompilerVendor.LLVM ∨ v = CompilerVendor.GNU) ∧
    (∀ e : ReadErr, compiler_vendor (Except.error e) = Except.ok CompilerVendor.GNU) ∧
    (∀ (r : Except ReadErr (List (List Nat))) (v : Nat), compiler_vendor r = Except.ok v →
        v ≠ CompilerVendor.INTEL ∧ v ≠ CompilerVendor.PGI ∧ v ≠ CompilerVendor.ARMCLANG ∧
          v ≠ CompilerVendor.FUJITSU) ∧
    (∃ a b c : Except ReadErr (List (List Nat)),
        compiler_vendor a = Except.ok CompilerVendor.AMD ∧
        compiler_vendor b = Except.ok CompilerVendor.LLVM ∧
        compiler_vendor c = Except.ok CompilerVendor.GNU) := by
  have range : ∀ (r : Except ReadErr (List (List Nat))) (v : Nat),
      compiler_vendor r = Except.ok v →
      v = CompilerVendor.AMD ∨ v = CompilerVendor.LLVM ∨ v = CompilerVendor.GNU := by
    intro r v h
    cases hr : _get_comment r with
    | error e => simp [compiler_vendor, hr, Except.map] at h
    | ok c =>
      have : v = vendorOfComment c := by
        simp [compiler_vendor, hr, Except.map] at h
        omega
      rw [this]
      exact vendorOfComment_mem c
  refine ⟨range, ?_, ?_, ?_⟩
  · intro e
    cases e <;> decide
  · intro r v h
    rcases range r v h with h' | h' | h' <;>
      simp [h', CompilerVendor.AMD, CompilerVendor.LLVM, CompilerVendor.GNU,
        CompilerVendor.INTEL, CompilerVendor.PGI, CompilerVendor.ARMCLANG,
        CompilerVendor.FUJITSU]
  · exact ⟨Except.ok [[65, 77, 68]], Except.ok [[99, 108, 97, 110, 103]],
      Except.error ReadErr.elfError, by decide, by decide, by decide⟩

/-- Witness for C8 (amended), instantiating the range statement at a
caught read failure. -/
theorem c8_compiler_vendor_range_witness :
    CompilerVendor.GNU = CompilerVendor.AMD ∨ CompilerVendor.GNU = CompilerVendor.LLVM ∨
      CompilerVendor.GNU = CompilerVendor.GNU :=
  c8_compiler_vendor_range.1 (Except.error ReadErr.elfError) CompilerVendor.GNU (by decide)

/-- Claim C4: evaluation of the `env_list` construction of
`ShifterContainer._prepare` at the failing input `env = {'FOO': 'bar'}`.
The `f'--env={env_var}={env_var}'` line interpolates the `(key, value)`
tuple itself, producing `--env=('FOO', 'bar')=('FOO', 'bar')` — neither
`--env=FOO=bar` (as the spec's table and this claim state) nor even
`--env=FOO=FOO`.  The `LD_PRELOAD`/`LD_LIBRARY_PATH` arguments are
produced as claimed. -/
theorem c4_shifter_env_tuple_repr :
    envArgs [("FOO", "bar")] [] [] =
      ["--env=(\x27FOO\x27, \x27bar\x27)=(\x27FOO\x27, \x27bar\x27)"] ∧
    (envArgs [("FOO", "bar")] [] []).contains "--env=FOO=bar" = false ∧
    (envArgs [("FOO", "bar")] [] []).contains "--env=FOO=FOO" = false ∧
    envArgs [("FOO", "bar")] ["/l/a.so"] ["/l/d"] =
      ["--env=LD_PRELOAD=/l/a.so", "--env=LD_LIBRARY_PATH=/l/d",
        "--env=(\x27FOO\x27, \x27bar\x27)=(\x27FOO\x27, \x27bar\x27)"] :=
  ⟨by decide, by decide, by decide, by decide⟩

/-- Claim C6: `get_data` raises `AnalysisError` if and only if the
in-container `ldd --version` run exits non-zero (Python truthiness of
the returncode); on a zero exit no error is raised and the recorded
libc version is updated by parsing the captured output. -/
theorem c6_get_data_analysis_error :
    ∀ (c : ContainerState) (code : Int) (output : String),
      ((∃ e : AnalysisError, get_data c code output = Except.error e) ↔ code ≠ 0) ∧
      (code = 0 → get_data c code output = Except.ok { c with libc_v := parseVersion output }) ∧
      (code ≠ 0 → get_data c code output = Except.error { code := code }) := by
  intro c code output
  by_cases h : code = 0
  · subst h
    simp [get_data]
  · simp [get_data, h]

/-- Witness for C6: a zero exit updates `libc_v` from the sample `ldd`
banner, and a non-zero exit raises. -/
theorem c6_get_data_analysis_error_witness :
    get_data emptyContainer 0 "ldd (GNU libc) 2.28" =
      Except.ok { emptyContainer with libc_v := parseVersion "ldd (GNU libc) 2.28" } ∧
    get_data emptyContainer 139 "" = Except.error { code := 139 } :=
  ⟨(c6_get_data_analysis_error emptyContainer 0 "ldd (GNU libc) 2.28").2.1 rfl,
    (c6_get_data_analysis_error emptyContainer 139 "").2.2 (by decide)⟩

/-- Claim C9: `add_ld_preload` and `add_ld_library_path` are idempotent
and duplicate-free — a second call with the same path is the identity, a
path already present leaves the object unchanged, a new path is appended
at the end (order of first insertion), and `Nodup` is preserved. -/
theorem c9_add_ld_idempotent :
    ∀ (c : ContainerState) (p : String),
      add_ld_preload (add_ld_preload c p) p = add_ld_preload c p ∧
      add_ld_library_path (add_ld_library_path c p) p = add_ld_library_path c p ∧
      (p ∈ c.ld_preload → add_ld_preload c p = c) ∧
      (p ∉ c.ld_preload → (add_ld_preload c p).ld_preload = c.ld_preload ++ [p]) ∧
      (c.ld_preload.Nodup → (add_ld_preload c p).ld_preload.Nodup) ∧
      (p ∈ c.ld_lib_path → add_ld_library_path c p = c) ∧
      (p ∉ c.ld_lib_path → (add_ld_library_path c p).ld_lib_path = c.ld_lib_path ++ [p]) ∧
      (c.ld_lib_path.Nodup → (add_ld_library_path c p).ld_lib_path.Nodup) := by
  intro c p
  refine ⟨?_, ?_, ?_, ?_, ?_, ?_, ?_, ?_⟩
  · by_cases h : p ∈ c.ld_preload <;> simp [add_ld_preload, h]
  · by_cases h : p ∈ c.ld_lib_path <;> simp [add_ld_library_path, h]
  · intro h
    simp [add_ld_preload, h]
  · intro h
    simp [add_ld_preload, h]
  · intro hn
    by_cases h : p ∈ c.ld_preload
    · simp [add_ld_preload, h, hn]
    · simp [add_ld_preload, h, List.nodup_append, hn]
  · intro h
    simp [add_ld_library_path, h]
  · intro h
    simp [add_ld_library_path, h]
  · intro hn
    by_cases h : p ∈ c.ld_lib_path
    · simp [add_ld_library_path, h, hn]
    · simp [add_ld_library_path, h, List.nodup_append, hn]

/-- Witness for C9 at a fresh container and the path `"/lib/a.so"`. -/
theorem c9_add_ld_idempotent_witness :
    (add_ld_preload emptyContainer "/lib/a.so").ld_preload = [] ++ ["/lib/a.so"] ∧
    (add_ld_library_path emptyContainer "/lib/a.so").ld_lib_path = [] ++ ["/lib/a.so"] :=
  ⟨(c9_add_ld_idempotent emptyContainer "/lib/a.so").2.2.2.1 (by decide),
    (c9_add_ld_idempotent emptyContainer "/lib/a.so").2.2.2.2.2.2.1 (by decide)⟩

/-- The two streams of the `Container.bound` generator, characterized by
filtering the dict on source existence. -/
theorem bound_eq_filter (fs : PathParts → Bool) (l : List (PathParts × BoundFile)) :
    (bound fs l).1 =
      (l.filter (fun e => fs e.2.path)).map (fun e => (e.2.path, e.1, e.2.option)) ∧
    (bound fs l).2 =
      (l.filter (fun e => !(fs e.2.path))).map (fun e => (e.2.path, e.1)) := by
  induction l with
  | nil => simp [bound]
  | cons hd tl ih =>
    obtain ⟨d, data⟩ := hd
    by_cases h : fs data.path <;>
      simp [bound, h, ih.1, ih.2, List.filter_cons]

/-- Claim C7: iterating `Container.bound` yields only entries whose
source exists at that moment; every entry with a missing source is
dropped from the iteration and instead appears — with its source and
destination — in a warning, and dropping one entry does not stop the
iteration of the rest (the yielded entries are exactly the filter of the
dict on existence, in dict order). -/
theorem c7_bound_existing_only :
    ∀ (fs : PathParts → Bool) (l : List (PathParts × BoundFile)),
      (∀ e ∈ (bound fs l).1, fs e.1 = true) ∧
      ((bound fs l).1 =
        (l.filter (fun e => fs e.2.path)).map (fun e => (e.2.path, e.1, e.2.option))) ∧
      ((bound fs l).2 =
        (l.filter (fun e => !(fs e.2.path))).map (fun e => (e.2.path, e.1))) := by
  intro fs l
  refine ⟨?_, (bound_eq_filter fs l).1, (bound_eq_filter fs l).2⟩
  intro e he
  rw [(bound_eq_filter fs l).1] at he
  simp only [List.mem_map, List.mem_filter] at he
  obtain ⟨a, ⟨_, hfs⟩, hae⟩ := he
  rw [← hae]
  exact hfs

/-- Witness for C7: a dict with one existing and one missing source;
the existing one is yielded and its source passes the existence test. -/
theorem c7_bound_existing_only_witness :
    (fun p : PathParts => p == ["tmp"]) ((["tmp"], (["dst"] : PathParts), (0 : Nat))).1 = true :=
  (c7_bound_existing_only (fun p : PathParts => p == ["tmp"])
      [(["dst"], { path := ["tmp"], option := 0 }),
        (["other"], { path := ["gone"], option := 0 })]).1
    (["tmp"], ["dst"], 0) (by decide)

/-- Claim C3 counterexample: after `ShifterContainer.run` returns — with
exit code 0 as well as with exit code 1 — the staging directory created
by `_prepare` still exists on disk: `run` performs no cleanup, and the
`TemporaryDirectory` handle stays alive in `self.temp_dir`. -/
theorem c3_staging_survives_run :
    "/tmp/e4scl-stage0" ∈ (shifter_run (fun _ => false)
        { image := "img", executable := "shifter", env := [], ld_preload := [],
          ld_lib_path := [], bound := [], temp_dir := none }
        "/tmp/e4scl-stage0" [] ["true"] 0).2.1 ∧
    "/tmp/e4scl-stage0" ∈ (shifter_run (fun _ => false)
        { image := "img", executable := "shifter", env := [], ld_preload := [],
          ld_lib_path := [], bound := [], temp_dir := none }
        "/tmp/e4scl-stage0" [] ["true"] 1).2.1 :=
  ⟨by decide, by decide⟩

/-- Claim C3 (amended): whatever the exit code, when `run` returns the
staging directory still exists and its `TemporaryDirectory` handle is
retained in `self.temp_dir`; the directory is removed when that handle
is finalized (object destruction or replacement by a later `run`), after
which it no longer exists. -/
theorem c3_staging_lifetime :
    ∀ (isDir : String → Bool) (c : ShifterContainer) (tmp : String) (fs : List String)
      (cmd : List String) (code : Int), tmp ∉ fs →
      tmp ∈ (shifter_run isDir c tmp fs cmd code).2.1 ∧
      (shifter_run isDir c tmp fs cmd code).1.temp_dir = some tmp ∧
      tmp ∉ (finalize_temp_dir (shifter_run isDir c tmp fs cmd code).1
          (shifter_run isDir c tmp fs cmd code).2.1).2 := by
  intro isDir c tmp fs cmd code hfresh
  refine ⟨?_, rfl, ?_⟩
  · simp [shifter_run, shifter_prepare]
  · simp [finalize_temp_dir, shifter_run, shifter_prepare]
    exact hfresh

/-- Witness for C3 (amended) at a concrete container, staging name and
non-zero exit code. -/
theorem c3_staging_lifetime_witness :
    "/tmp/e4scl-stage1" ∈ (shifter_run (fun _ => false)
        { image := "img", executable := "shifter", env := [], ld_preload := [],
          ld_lib_path := [], bound := [], temp_dir := none }
        "/tmp/e4scl-stage1" [] ["true"] 1).2.1 ∧
    (shifter_run (fun _ => false)
        { image := "img", executable := "shifter", env := [], ld_preload := [],
          ld_lib_path := [], bound := [], temp_dir := none }
        "/tmp/e4scl-stage1" [] ["true"] 1).1.temp_dir = some "/tmp/e4scl-stage1" ∧
    "/tmp/e4scl-stage1" ∉ (finalize_temp_dir (shifter_run (fun _ => false)
        { image := "img", executable := "shifter", env := [], ld_preload := [],
          ld_lib_path := [], bound := [], temp_dir := none }
        "/tmp/e4scl-stage1" [] ["true"] 1).1
        (shifter_run (fun _ => false)
          { image := "img", executable := "shifter", env := [], ld_preload := [],
            ld_lib_path := [], bound := [], temp_dir := none }
          "/tmp/e4scl-stage1" [] ["true"] 1).2.1).2 :=
  c3_staging_lifetime (fun _ => false)
    { image := "img", executable := "shifter", env := [], ld_preload := [],
      ld_lib_path := [], bound := [], temp_dir := none }
    "/tmp/e4scl-stage1" [] ["true"] 1 (by decide)

/-- The staging root never binds into `/etc`. -/
theorem container_dir_not_etc : pyStartsWith CONTAINER_DIR "/etc" = false := by decide

/-- Claim C10: `AnalyzeCommand.main` raises `InternalError` when
`__E4S_CL_JSON_FD` is absent (the default `'-1'`) or set to `'-1'`, and
an error result carries no written document; on the success path,
sonames the guest resolver cannot locate are skipped silently and are
absent from the emitted document, whose entries are exactly the resolved
ones. -/
theorem c10_analyze_fd_guard :
    ∀ (resolveG : String → Option String) (libs : List String) (fdv : Option String),
      (analyze_main resolveG libs none = Except.error AnalyzeError.internalError) ∧
      (fdv = some "-1" →
        analyze_main resolveG libs fdv = Except.error AnalyzeError.internalError) ∧
      (∀ (fd : Int) (out : List (String × String)),
        analyze_main resolveG libs fdv = Except.ok (fd, out) →
          (∀ s ∈ libs, resolveG s = none → ∀ p, (s, p) ∉ out) ∧
          (∀ e ∈ out, resolveG e.1 = some e.2)) := by
  intro resolveG libs fdv
  refine ⟨rfl, ?_, ?_⟩
  · rintro rfl
    rfl
  · intro fd out h
    simp only [analyze_main] at h
    split at h
    · simp at h
    · split at h
      · simp at h
      · simp only [Except.ok.injEq, Prod.mk.injEq] at h
        obtain ⟨-, h2⟩ := h
        subst h2
        constructor
        · intro s hs hnone p hp
          rw [List.mem_filterMap] at hp
          obtain ⟨a, _, hmap⟩ := hp
          obtain ⟨v, hv, heq⟩ := Option.map_eq_some'.mp hmap
          obtain ⟨rfl, rfl⟩ := Prod.mk.injEq a v s p ▸ heq
          rw [hnone] at hv
          cases hv
        · intro e he
          rw [List.mem_filterMap] at he
          obtain ⟨a, _, hmap⟩ := he
          obtain ⟨v, hv, heq⟩ := Option.map_eq_some'.mp hmap
          rw [← heq]
          simpa using hv

/-- Witness for C10: one resolvable and one unresolvable soname with a
valid fd; the emitted document holds exactly the resolved entry. -/
theorem c10_analyze_fd_guard_witness :
    (∀ s ∈ ["libfoo.so", "libmissing.so"],
      (fun q : String => if q = "libfoo.so" then some "/usr/lib/libfoo.so" else none) s = none →
      ∀ p : String, (s, p) ∉ [("libfoo.so", "/usr/lib/libfoo.so")]) ∧
    (∀ e ∈ [("libfoo.so", "/usr/lib/libfoo.so")],
      (fun q : String => if q = "libfoo.so" then some "/usr/lib/libfoo.so" else none) e.1 =
        some e.2) :=
  (c10_analyze_fd_guard
      (fun q : String => if q = "libfoo.so" then some "/usr/lib/libfoo.so" else none)
      ["libfoo.so", "libmissing.so"] (some "7")).2.2 7
    [("libfoo.so", "/usr/lib/libfoo.so")] (by decide)

/-- The three logs of the `_setup_import` loop, characterized by
filtering the bound entries on the branch conditions. -/
theorem setup_import_aux_eq (isDir : String → Bool) (whereDir : String)
    (bnd : List (String × String × Nat)) :
    (setup_import_aux isDir whereDir bnd).volumes =
      (bnd.filter (fun e => !(pyStartsWith e.2.1 CONTAINER_DIR) && isDir e.1 &&
        !(pyStartsWith e.2.1 "/etc"))).map (fun e => (e.1, e.2.1)) ∧
    (setup_import_aux isDir whereDir bnd).errors =
      (bnd.filter (fun e => !(pyStartsWith e.2.1 CONTAINER_DIR) && isDir e.1 &&
        pyStartsWith e.2.1 "/etc")).map (fun e => (e.1, e.2.1)) ∧
    (setup_import_aux isDir whereDir bnd).warnings =
      (bnd.filter (fun e => !(pyStartsWith e.2.1 CONTAINER_DIR) && !(isDir e.1))).map
        (fun e => e.1) := by
  induction bnd with
  | nil => simp [setup_import_aux]
  | cons hd tl ih =>
    obtain ⟨source, dest, opt⟩ := hd
    by_cases h1 : pyStartsWith dest CONTAINER_DIR
    · simp [setup_import_aux, h1, ih.1, ih.2.1, ih.2.2, List.filter_cons]
    · by_cases h2 : isDir source
      · by_cases h3 : pyStartsWith dest "/etc"
        · simp [setup_import_aux, h1, h2, h3, ih.1, ih.2.1, ih.2.2, List.filter_cons]
        · simp [setup_import_aux, h1, h2, h3, ih.1, ih.2.1, ih.2.2, List.filter_cons]
      · simp [setup_import_aux, h1, h2, ih.1, ih.2.1, ih.2.2, List.filter_cons]

/-- Claim C5: the Shifter volume list never contains a destination
starting with `/etc` and never a plain-file source (every source is the
staging root or a directory); a directory destined under `/etc` is
skipped into an error log, a plain file outside the import directory is
skipped into a warning log, and in both cases the remaining volumes are
still produced (the function is total — no exception). -/
theorem c5_shifter_volumes_safe :
    ∀ (isDir : String → Bool) (whereDir : String) (bnd : List (String × String × Nat)),
      (∀ sd ∈ (setup_import isDir whereDir bnd).volumes, pyStartsWith sd.2 "/etc" = false) ∧
      (∀ sd ∈ (setup_import isDir whereDir bnd).volumes, sd.1 = whereDir ∨ isDir sd.1 = true) ∧
      ((setup_import isDir whereDir bnd).volumes =
        (whereDir, CONTAINER_DIR) ::
          (bnd.filter (fun e => !(pyStartsWith e.2.1 CONTAINER_DIR) && isDir e.1 &&
            !(pyStartsWith e.2.1 "/etc"))).map (fun e => (e.1, e.2.1))) ∧
      ((setup_import isDir whereDir bnd).errors =
        (bnd.filter (fun e => !(pyStartsWith e.2.1 CONTAINER_DIR) && isDir e.1 &&
          pyStartsWith e.2.1 "/etc")).map (fun e => (e.1, e.2.1))) ∧
      ((setup_import isDir whereDir bnd).warnings =
        (bnd.filter (fun e => !(pyStartsWith e.2.1 CONTAINER_DIR) && !(isDir e.1))).map
          (fun e => e.1)) := by
  intro isDir whereDir bnd
  have hc := setup_import_aux_eq isDir whereDir bnd
  have hvol : (setup_import isDir whereDir bnd).volumes =
      (whereDir, CONTAINER_DIR) ::
        (bnd.filter (fun e => !(pyStartsWith e.2.1 CONTAINER_DIR) && isDir e.1 &&
          !(pyStartsWith e.2.1 "/etc"))).map (fun e => (e.1, e.2.1)) := by
    simp [setup_import, hc.1]
  refine ⟨?_, ?_, hvol, by simp [setup_import, hc.2.1], by simp [setup_import, hc.2.2]⟩
  · intro sd hsd
    rw [hvol] at hsd
    rcases List.mem_cons.mp hsd with h | h
    · rw [h]
      exact container_dir_not_etc
    · simp only [List.mem_map, List.mem_filter] at h
      obtain ⟨a, ⟨_, hcond⟩, hae⟩ := h
      rw [← hae]
      simp only [Bool.and_eq_true, Bool.not_eq_true'] at hcond
      exact hcond.2
  · intro sd hsd
    rw [hvol] at hsd
    rcases List.mem_cons.mp hsd with h | h
    · left
      rw [h]
    · right
      simp only [List.mem_map, List.mem_filter] at h
      obtain ⟨a, ⟨_, hcond⟩, hae⟩ := h
      rw [← hae]
      simp only [Bool.and_eq_true, Bool.not_eq_true'] at hcond
      exact hcond.1.2

/-- Witness for C5: of three bound entries — a directory to a plain
destination, a directory into `/etc`, and a plain file — only the first
becomes a volume (after the staging root), and it satisfies the safety
conclusion. -/
theorem c5_shifter_volumes_safe_witness :
    pyStartsWith (("/hostdir", "/gdir") : String × String).2 "/etc" = false :=
  (c5_shifter_volumes_safe (fun s : String => s == "/hostdir") "/tmp/t0"
      [("/hostdir", "/gdir", 0), ("/hostdir", "/etc/conf", 0), ("/plain.txt", "/x", 0)]).1
    ("/hostdir", "/gdir") (by decide)

/-- `containsPath` decides the parts-prefix relation (the `_contains`
helper of `bind_file` tests exactly this). -/
theorem containsPath_iff (a b : PathParts) : containsPath a b = true ↔ a <+: b := by
  induction a generalizing b with
  | nil => simp [containsPath]
  | cons x t ih =>
    cases b with
    | nil => simp [containsPath]
    | cons y s =>
      simp only [containsPath, Bool.and_eq_true, beq_iff_eq, ih, List.cons_prefix_cons]

/-- Folding `resolveStep` never introduces a `'..'` component. -/
theorem foldl_resolveStep_no_dd (p : PathParts) :
    ∀ acc : PathParts, ".." ∉ acc → ".." ∉ p.foldl resolveStep acc := by
  induction p with
  | nil =>
    intro acc h
    simpa using h
  | cons x t ih =>
    intro acc h
    rw [List.foldl_cons]
    apply ih
    rw [resolveStep]
    split_ifs with hx
    · intro hm
      exact h ((List.dropLast_sublist acc).subset hm)
    · intro hm
      rcases List.mem_append.mp hm with h1 | h1
      · exact h h1
      · rw [List.mem_singleton] at h1
        exact hx h1.symm

/-- The resolution of a path contains no `'..'` component. -/
theorem resolveParts_no_dd (p : PathParts) : ".." ∉ resolveParts p :=
  foldl_resolveStep_no_dd p [] (by simp)

/-- On a `'..'`-free path the fold is a plain append. -/
theorem foldl_resolveStep_id (p : PathParts) :
    ∀ acc : PathParts, ".." ∉ p → p.foldl resolveStep acc = acc ++ p := by
  induction p with
  | nil =>
    intro acc _
    simp
  | cons x t ih =>
    intro acc hp
    have hx : ¬x = ".." := fun he => hp (by rw [← he]; exact List.mem_cons_self x t)
    rw [List.foldl_cons]
    have hstep : resolveStep acc x = acc ++ [x] := by simp [resolveStep, hx]
    rw [hstep, ih (acc ++ [x]) (fun hm => hp (List.mem_cons_of_mem x hm)), List.append_assoc]
    rfl

/-- `Path.resolve()` is the identity on a `'..'`-free absolute path. -/
theorem resolveParts_id (p : PathParts) (hp : ".." ∉ p) : resolveParts p = p := by
  have := foldl_resolveStep_id p [] hp
  simpa [resolveParts] using this

/-- Members of `ddAncestors` contain no `'..'` (they are resolved). -/
theorem ddAncestors_no_dd (p : PathParts) : ∀ q ∈ ddAncestors p, ".." ∉ q := by
  intro q hq
  rw [ddAncestors, List.mem_filterMap] at hq
  obtain ⟨i, _, hi⟩ := hq
  split at hi
  · rw [Option.some.injEq] at hi
    rw [← hi]
    exact resolveParts_no_dd _
  · exact Option.noConfusion hi

/-- A path containing `'..'` has a first `'..'`, before which the
prefix is `'..'`-free. -/
theorem exists_first_dd (p : PathParts) (h : ".." ∈ p) :
    ∃ j, j < p.length ∧ p[j]? = some ".." ∧ ".." ∉ p.take j := by
  induction p with
  | nil => cases h
  | cons x t ih =>
    by_cases hx : x = ".."
    · exact ⟨0, by simp, by simp [hx], by simp⟩
    · have ht : ".." ∈ t := by
        rcases List.mem_cons.mp h with h1 | h1
        · exact absurd h1.symm hx
        · exact h1
      obtain ⟨j, hj, hjdd, hjtake⟩ := ih ht
      refine ⟨j + 1, by simpa using hj, by simpa using hjdd, ?_⟩
      rw [List.take_succ_cons]
      intro hm
      rcases List.mem_cons.mp hm with h1 | h1
      · exact hx h1.symm
      · exact hjtake h1

/-- The clean prefix before a `'..'` is one of the visited ancestors. -/
theorem take_mem_ddAncestors (p : PathParts) (j : Nat) (hj : j < p.length)
    (hjdd : p[j]? = some "..") (hjtake : ".." ∉ p.take j) :
    p.take j ∈ ddAncestors p := by
  rw [ddAncestors, List.mem_filterMap]
  exact ⟨j, List.mem_range.mpr hj, by simp [hjdd, resolveParts_id _ hjtake]⟩

/-- Pruning the visited set (which seeds the original `'..'`-laden path)
gives the same result as pruning only the resolved path and the resolved
ancestors: the original path is contained in the tree of the ancestor
before its first `'..'` — hence pruned — and, still containing `'..'`,
it contains no resolved path, hence prunes nothing else. -/
theorem unrelative_eq_claimed (p : PathParts) (h : ".." ∈ p) :
    unrelative p = prunedList (resolveParts p :: ddAncestors p) := by
  have hLno : ∀ q ∈ resolveParts p :: ddAncestors p, ".." ∉ q := by
    intro q hq
    rcases List.mem_cons.mp hq with h1 | h1
    · rw [h1]
      exact resolveParts_no_dd p
    · exact ddAncestors_no_dd p q h1
  have hpL : p ∉ resolveParts p :: ddAncestors p := fun hm => hLno p hm h
  obtain ⟨j, hj, hjdd, hjtake⟩ := exists_first_dd p h
  have hq0mem : p.take j ∈ (resolveParts p :: ddAncestors p).dedup := by
    rw [List.mem_dedup]
    exact List.mem_cons_of_mem _ (take_mem_ddAncestors p j hj hjdd hjtake)
  have hq0ne : p.take j ≠ p := by
    intro he
    have hlen := congrArg List.length he
    rw [List.length_take] at hlen
    omega
  have hq0cp : containsPath (p.take j) p = true :=
    (containsPath_iff _ _).mpr (List.take_prefix j p)
  have hunfold : unrelative p = prunedList (p :: (resolveParts p :: ddAncestors p)) := rfl
  rw [hunfold]
  simp only [prunedList]
  rw [List.dedup_cons_of_not_mem hpL]
  rw [List.filter_cons_of_neg ?hnp]
  case hnp =>
    simp only [decide_eq_true_eq]
    intro hall
    rcases hall (p.take j) (List.mem_cons_of_mem _ hq0mem) with h1 | h1
    · exact hq0ne h1
    · rw [hq0cp] at h1
      exact Bool.noConfusion h1
  apply List.filter_congr
  intro e he
  simp only [decide_eq_decide]
  constructor
  · intro hall q hq
    exact hall q (List.mem_cons_of_mem _ hq)
  · intro hall q hq
    rcases List.mem_cons.mp hq with h1 | h1
    · rw [h1]
      right
      cases hcp : containsPath p e with
      | false => rfl
      | true =>
        exfalso
        have hpre := (containsPath_iff p e).mp hcp
        exact hLno e (List.mem_dedup.mp he) (hpre.sublist.subset h)
    · exact hall q h1

/-- Updating the dict along fresh distinct keys appends the bound files
in order. -/
theorem foldl_dictUpdate_map (L : List PathParts) (opt : Nat) :
    ∀ acc : List (PathParts × BoundFile), (∀ q ∈ L, ∀ e ∈ acc, e.1 ≠ q) → L.Nodup →
      (L.foldl (fun bf q => dictUpdate bf q { path := q, option := opt }) acc).map
          (fun e => e.2.path) =
        acc.map (fun e => e.2.path) ++ L := by
  induction L with
  | nil =>
    intro acc _ _
    simp
  | cons q t ih =>
    intro acc hfresh hnd
    rw [List.foldl_cons]
    have hupd : dictUpdate acc q { path := q, option := opt } =
        acc ++ [(q, { path := q, option := opt })] := by
      rw [dictUpdate, if_neg ?hany]
      case hany =>
        intro hany
        rw [List.any_eq_true] at hany
        obtain ⟨e, he, heq⟩ := hany
        exact hfresh q (List.mem_cons_self q t) e he (by simpa using heq)
    rw [hupd]
    have hfresh2 : ∀ r ∈ t, ∀ e ∈ acc ++ [(q, ({ path := q, option := opt } : BoundFile))],
        e.1 ≠ r := by
      intro r hr e he
      rcases List.mem_append.mp he with h1 | h1
      · exact hfresh r (List.mem_cons_of_mem q hr) e h1
      · rw [List.mem_singleton] at h1
        rw [h1]
        intro he2
        have hqr : q = r := he2
        exact (List.nodup_cons.mp hnd).1 (hqr ▸ hr)
    rw [ih _ hfresh2 (List.Nodup.of_cons hnd)]
    simp

/-- The list `_unrelative` returns is duplicate-free. -/
theorem unrelative_nodup (p : PathParts) : (unrelative p).Nodup := by
  simp only [unrelative, prunedList]
  exact List.Nodup.filter _ (List.nodup_dedup _)

/-- Claim C2: binding a path containing `'..'` segments with no
destination registers as sources exactly the fully resolved path plus
the resolved prefix directory before each `'..'` segment, pruned of any
path lying inside the tree of another; for `/a/b/../c/f` the bound
sources are exactly `{/a/b, /a/c/f}`. -/
theorem c2_bind_file_unrelative :
    (∀ (p : PathParts) (opt : Nat), ".." ∈ p →
        boundSources (bind_file_nodest emptyContainer p opt) = claimedSources p) ∧
    boundSources (bind_file_nodest emptyContainer ["a", "b", "..", "c", "f"] 0) =
      ({["a", "b"], ["a", "c", "f"]} : Finset PathParts) := by
  constructor
  · intro p opt h
    rw [boundSources, bind_file_nodest]
    have hstart : emptyContainer.bound_files = ([] : List (PathParts × BoundFile)) := rfl
    rw [hstart]
    rw [foldl_dictUpdate_map (unrelative p) opt [] (by simp) (unrelative_nodup p)]
    rw [List.map_nil, List.nil_append, unrelative_eq_claimed p h, claimedSources]
  · decide

/-- Witness for C2, instantiating the general statement at
`/a/b/../c/f`. -/
theorem c2_bind_file_unrelative_witness :
    boundSources (bind_file_nodest emptyContainer ["a", "b", "..", "c", "f"] 0) =
      claimedSources ["a", "b", "..", "c", "f"] :=
  c2_bind_file_unrelative.1 ["a", "b", "..", "c", "f"] 0 (by decide)

end E4SCL
